import Mathlib

/-!
Verification of the swap-server venue-selection and instruction-assembly
pipeline.  The definitions below are shallow embeddings of the TypeScript
source: big-integer (`bigint`) arithmetic becomes `Nat` arithmetic with
explicit floor division, JavaScript `number` values that carry decimal
amounts become `Rat`, fallible code returns `Except`/`Option`, and the
network/chain reads that feed each function become explicit parameters.
-/

namespace SwapServer

/-! ### PumpSwap constant-product math
Embeds the buy and sell pricing of
`src/swap/swaps/pumpswap/PumpSwapStrategy.ts` (generateSwapInstructions).
The JS slippage conversion `BigInt(Math.floor((slippageBps / 100) * 100))`
runs in IEEE-754 binary64 arithmetic, and the double round-trip is not the
identity on integers: it is embedded exactly by `jsEffBps` below, built
from an integer-arithmetic model of one binary64 rounding
(round to nearest, ties to even). -/

/-- Fuel-driven binary logarithm: `natLog2Fuel fuel n = floor(log2 n)`
whenever `1 ≤ n ≤ 2 ^ fuel` (structural recursion on the fuel so that it
evaluates inside the kernel). -/
def natLog2Fuel : Nat → Nat → Nat
  | 0, _ => 0
  | fuel + 1, n => if n ≤ 1 then 0 else 1 + natLog2Fuel fuel (n / 2)

/-- Floor of the binary logarithm of a positive natural. -/
def natLog2 (n : Nat) : Nat := natLog2Fuel n n

/-- Round-to-nearest with ties-to-even of the ratio `num / den`
(`den` positive). -/
def roundNearestEvenDiv (num den : Nat) : Nat :=
  let q := num / den
  let r := num % den
  if 2 * r < den then q
  else if den < 2 * r then q + 1
  else if q % 2 = 0 then q else q + 1

/-- Floor of the binary logarithm of `num / den` (both positive): the
bit lengths of `num` and `den` bracket it within two candidates, and the
comparison `2 ^ z ≤ num / den` selects the right one. -/
def floorLog2Ratio (num den : Nat) : Int :=
  let z : Int := (natLog2 num : Int) - (natLog2 den : Int)
  if 0 ≤ z then
    (if den * 2 ^ z.toNat ≤ num then z else z - 1)
  else
    (if den ≤ num * 2 ^ (-z).toNat then z else z - 1)

/-- One IEEE-754 binary64 rounding (round to nearest, ties to even, 53-bit
significand) of the non-negative ratio `num / den`, returned as a dyadic
pair `(m, g)` of value `m / 2 ^ g`.  Exact for values below `2 ^ 53`
(every value the slippage conversion produces), where the binary exponent
is never positive. -/
def roundDoubleRatio (num den : Nat) : Nat × Nat :=
  if num = 0 then (0, 0)
  else
    let z := floorLog2Ratio num den
    let g := (52 - z).toNat
    (roundNearestEvenDiv (num * 2 ^ g) den, g)

/-- Embeds the JS slippage conversion
`BigInt(Math.floor((slippageBps / 100) * 100))` under binary64 semantics:
divide the requested basis points by 100 (first rounding), multiply back by
100 (second rounding), take the floor.  The round-trip is the identity for
most integers but loses one basis point for 573 integers in `[0, 10000]`
(for example `jsEffBps 29 = 28`, because `29 / 100` rounds below `0.29`
and the product rounds to `28.999999999999996`). -/
def jsEffBps (slippageBps : Nat) : Nat :=
  let x := roundDoubleRatio slippageBps 100
  let y := roundDoubleRatio (100 * x.1) (2 ^ x.2)
  y.1 / 2 ^ y.2

/-- Result of the PumpSwap pricing computation: the expected output of the
constant-product formula and the slippage-adjusted minimum received. -/
structure PumpSwapQuote where
  amountOut : Nat
  minOut : Nat
  deriving DecidableEq, Repr

/-- Buy path of `PumpSwapStrategy.generateSwapInstructions`: spend
`solAmountIn` lamports of quote (SOL) for base tokens.  Mirrors the source:
`k = baseReserves * quoteReserves`, `newQuoteReserves = quoteReserves +
solAmountIn`, `newBaseReserves = k / newQuoteReserves` (floor),
`baseAmountOut = baseReserves - newBaseReserves`, and `minBaseAmountOut =
baseAmountOut - (baseAmountOut * BigInt(Math.floor((slippageBps / 100) *
100))) / 10000`, the float conversion embedded by `jsEffBps`. -/
def pumpSwapBuy (baseReserves quoteReserves solAmountIn slippageBps : Nat) :
    Except String PumpSwapQuote :=
  if quoteReserves = 0 ∨ baseReserves = 0 then .error "Pool has zero reserves"
  else
    let k := baseReserves * quoteReserves
    let newQuoteReserves := quoteReserves + solAmountIn
    let newBaseReserves := k / newQuoteReserves
    let baseAmountOut := baseReserves - newBaseReserves
    let minBaseAmountOut :=
      baseAmountOut - (baseAmountOut * jsEffBps slippageBps) / 10000
    .ok ⟨baseAmountOut, minBaseAmountOut⟩

/-- Sell path of `PumpSwapStrategy.generateSwapInstructions`: sell
`baseAmountIn` base tokens for quote (SOL).  Mirrors the source:
`newBaseReserves = baseReserves + baseAmountIn`, `newQuoteReserves = k /
newBaseReserves` (floor), `quoteAmountOut = quoteReserves -
newQuoteReserves`, and `minQuoteAmountOut = quoteAmountOut -
(quoteAmountOut * BigInt(Math.floor((slippageBps / 100) * 100))) / 10000`,
the float conversion embedded by `jsEffBps`. -/
def pumpSwapSell (baseReserves quoteReserves baseAmountIn slippageBps : Nat) :
    Except String PumpSwapQuote :=
  if quoteReserves = 0 ∨ baseReserves = 0 then .error "Pool has zero reserves"
  else
    let k := baseReserves * quoteReserves
    let newBaseReserves := baseReserves + baseAmountIn
    let newQuoteReserves := k / newBaseReserves
    let quoteAmountOut := quoteReserves - newQuoteReserves
    let minQuoteAmountOut :=
      quoteAmountOut - (quoteAmountOut * jsEffBps slippageBps) / 10000
    .ok ⟨quoteAmountOut, minQuoteAmountOut⟩

/-! ### Pump.fun bonding-curve math
Embeds the buy-side token output of
`src/swap/swaps/pumpfun/PumpFunBondingCurveSwapStrategy.ts`:
`tokenAmountRaw = (virtualTokenReserves * baseSolInput) /
(virtualSolReserves + baseSolInput)` with bigint floor division. -/

/-- Token output of a pump.fun bonding-curve buy with exact SOL input. -/
def pumpFunBuyTokenOut (virtualSolReserves virtualTokenReserves baseSolInput : Nat) : Nat :=
  (virtualTokenReserves * baseSolInput) / (virtualSolReserves + baseSolInput)

/-! ### Platform fee (`src/utils/feeUtils.ts`) -/

/-- Embeds `calculateSendyFee`: a flat 1 percent fee, `solAmount / 100n`
with bigint floor division. -/
def calculateSendyFee (solAmount : Nat) : Nat :=
  solAmount / 100

/-- The fee function in the form the spec states it,
`fee(amount, bps) = floor(amount * bps / 10000)`; written from the spec
wording to be compared with `calculateSendyFee` (whose hard-coded rate is
100 bps). -/
def specFee (amount bps : Nat) : Nat :=
  amount * bps / 10000

/-! ### Accounts and instructions
An abstract rendering of the `TransactionInstruction` values the pipeline
builds.  Only the shape the claims talk about is kept: which program the
instruction targets and the amounts it carries. -/

/-- Abstract account identities appearing in the built instructions. -/
inductive Account where
  | user
  | sendyFeeAccount
  | wsolAta
  | tokenAta
  | otherAccount (n : Nat)
  deriving DecidableEq, Repr

/-- Abstract on-chain instructions assembled by the pipeline. -/
inductive Instr where
  | computeUnitPrice (microLamports : Int)
  | createAta (mint : Nat)
  | transfer (source : Account) (dest : Account) (lamports : Nat)
  | syncNative (account : Account)
  | swapIx (venue : Nat)
  | closeAccount (account : Account)
  deriving DecidableEq, Repr

/-- Embeds `makeSendyFeeInstruction` from `src/utils/feeUtils.ts`: returns
a system transfer to the platform fee account when `lamports > 0`, else
nothing. -/
def makeSendyFeeInstruction (lamports : Nat) : Option Instr :=
  if 0 < lamports then some (.transfer .user .sendyFeeAccount lamports) else none

/-- The platform fee transfer instruction as built inline by
`generateSwapTransaction` in `src/swap/swap.ts`. -/
def sendyFeeInstructionFor (lamports : Nat) : Instr :=
  .transfer .user .sendyFeeAccount lamports

/-! ### Sell-all detection (`src/utils/tokenAccounts.ts`)
`addCloseTokenAccountInstructionIfSellAll` reads the live balance of the
seller's token account; the whole body runs inside a `try` whose `catch`
only logs, so a failed lookup leaves the instruction list unchanged.  The
balance lookup is modelled as `Option (Nat × Nat)` carrying
`(balanceRaw, decimals)` when it succeeds, `none` when it throws or returns
no value.  JS double arithmetic on the amounts is modelled over `Rat`
(`0.001` as `1 / 1000`). -/

/-- Embeds `addCloseTokenAccountInstructionIfSellAll`.  Appends a
close-account instruction exactly when this is a sell of a non-native mint,
the balance lookup succeeded, and
`floor(amount * 10 ^ decimals) ≥ balanceRaw - balanceRaw * 0.001`. -/
def addCloseTokenAccountInstructionIfSellAll
    (isSellOperation : Bool) (inputMintIsNative : Bool)
    (balanceLookup : Option (Nat × Nat)) (decimalsParam : Option Nat)
    (amount : Rat) (instructions : List Instr) : List Instr :=
  if !isSellOperation then instructions
  else if inputMintIsNative then instructions
  else
    match balanceLookup with
    | none => instructions
    | some (balanceRaw, lookupDecimals) =>
      let tokenDecimals := decimalsParam.getD lookupDecimals
      let amountRaw : Int := ⌊amount * (10 : Rat) ^ tokenDecimals⌋
      let buffer : Rat := (balanceRaw : Rat) * (1 / 1000)
      let isSellAll := (balanceRaw : Rat) - buffer ≤ (amountRaw : Rat)
      if isSellAll then instructions ++ [Instr.closeAccount .tokenAta]
      else instructions

/-! ### Strategy router (`src/swap/swaps/router.ts`)
`getSwapStrategy` launches all five `canHandle` checks and awaits them with
`Promise.all`, which yields the results indexed by the fixed construction
order of `strategyClasses` no matter in which order the promises settle.  A
check therefore contributes one `CheckOutcome`: a boolean, or an error
(caught by the `.catch` handler and skipped by the selection loop). -/

/-- The five venue strategies. -/
inductive StrategyName where
  | moonshot
  | pumpswap
  | raydiumLaunchLab
  | pumpFunBondingCurve
  | raydium
  deriving DecidableEq, Repr

/-- Outcome of one `canHandle` check: resolved with a boolean, or rejected. -/
inductive CheckOutcome where
  | ok (canHandle : Bool)
  | err
  deriving DecidableEq, Repr

/-- The hand-ordered priority list `strategyClasses` from the router. -/
def strategyClasses : List StrategyName :=
  [.moonshot, .pumpswap, .raydiumLaunchLab, .pumpFunBondingCurve, .raydium]

/-- The selection loop of `getSwapStrategy`: walk the settled results in
order, return the first strategy whose check resolved `true`; entries that
rejected or resolved `false` are passed over; an empty remainder raises the
unsupported-token error. -/
def selectFromResults : List (StrategyName × CheckOutcome) → Except String StrategyName
  | [] => .error "Unsupported token or swap type"
  | (s, .ok true) :: _ => .ok s
  | _ :: rest => selectFromResults rest

/-- Embeds `getSwapStrategy`: the settled results are the fixed-priority
list paired with each strategy's outcome, and the loop scans them in that
order.  The completion order of the checks does not appear: `Promise.all`
returns results in construction order. -/
def getSwapStrategy (outcomes : StrategyName → CheckOutcome) : Except String StrategyName :=
  selectFromResults (strategyClasses.map fun s => (s, outcomes s))

/-- Specification-side selector: the first strategy in the fixed priority
list whose check resolved `true`. -/
def firstEligible (outcomes : StrategyName → CheckOutcome) : Option StrategyName :=
  strategyClasses.find? fun s => outcomes s == CheckOutcome.ok true

/-! ### Transaction assembly (`src/swap/swap.ts` and the
`generateAndCompileTransaction` draft) -/

/-- Result record of a strategy's `generateSwapInstructions`, as consumed
by `generateSwapTransaction`: an optional vendor pre-built versioned
transaction (the `_raydiumVersionedTx` escape hatch, modelled by its
instruction list), the discrete instruction list, optional cleanup
instructions, and the computed platform fee. -/
structure StrategyResult where
  raydiumVersionedTx : Option (List Instr)
  instructions : List Instr
  cleanupInstructions : List Instr
  sendyFeeLamports : Nat
  deriving DecidableEq, Repr

/-- Result of the transaction-build operation. -/
structure SwapTxResult where
  success : Bool
  transactions : List (List Instr)
  txCount : Nat
  error : Option String
  deriving DecidableEq, Repr

/-- Embeds `generateSwapTransaction` from `src/swap/swap.ts` after strategy
selection: a thrown error anywhere in the body is caught and returned as a
failure with no transactions; a vendor pre-built transaction is forwarded
unmodified, followed by a separate single-instruction fee transaction when
the fee is positive; otherwise the fee instruction is `unshift`ed in front
of the ATA-setup instructions and the strategy's instructions and the whole
list becomes one transaction; an empty instruction list is an error. -/
def generateSwapTransaction (ataInstructions : List Instr)
    (strategyOutcome : Except String StrategyResult) : SwapTxResult :=
  match strategyOutcome with
  | .error e => ⟨false, [], 0, some e⟩
  | .ok result =>
    match result.raydiumVersionedTx with
    | some raydiumTx =>
      let transactions :=
        if 0 < result.sendyFeeLamports then
          [raydiumTx, [sendyFeeInstructionFor result.sendyFeeLamports]]
        else [raydiumTx]
      ⟨true, transactions, transactions.length, none⟩
    | none =>
      if result.instructions.isEmpty then
        ⟨false, [], 0, some "Swap strategy did not return a transaction or instructions."⟩
      else
        let base := ataInstructions ++ result.instructions
        let allInstructions :=
          if 0 < result.sendyFeeLamports then
            sendyFeeInstructionFor result.sendyFeeLamports :: base
          else base
        ⟨true, [allInstructions], 1, none⟩

/-- Embeds the `generateAndCompileTransaction` draft assembler: prepend a
compute-unit-price instruction with `ceil(priorityFee * 1000000)`
micro-lamports when `priorityFee > 0` and that value is positive, append
every strategy-provided instruction, then compile; a compile failure
(modelled by `compileOk = false`) returns a failure with no transactions. -/
def generateAndCompileTransaction (priorityFee : Rat) (swapInstructions : List Instr)
    (compileOk : Bool) : SwapTxResult :=
  let computeBudget : List Instr :=
    if 0 < priorityFee then
      let microLamports : Int := ⌈priorityFee * 1000000⌉
      if 0 < microLamports then [.computeUnitPrice microLamports] else []
    else []
  let allInstructions := computeBudget ++ swapInstructions
  if compileOk then ⟨true, [allInstructions], 1, none⟩
  else ⟨false, [], 0, some "Transaction compilation error"⟩

/-- Recognizes an account-setup instruction. -/
def isSetupIx : Instr → Bool
  | .createAta _ => true
  | _ => false

/-- Recognizes the platform-fee transfer instruction. -/
def isFeeTransferIx : Instr → Bool
  | .transfer .user .sendyFeeAccount _ => true
  | _ => false

/-- Recognizes the venue swap instruction. -/
def isSwapIx : Instr → Bool
  | .swapIx _ => true
  | _ => false

/-- A list of instructions satisfies the claimed fee placement when every
platform-fee transfer comes after every account-setup instruction. -/
def feeAfterSetup (l : List Instr) : Prop :=
  ∀ i j : Fin l.length,
    isSetupIx (l.get i) = true → isFeeTransferIx (l.get j) = true → i < j

instance (l : List Instr) : Decidable (feeAfterSetup l) := by
  unfold feeAfterSetup
  infer_instance

/-! ### Selection cache (`src/utils/redisCache.ts`)
`NO_CACHE = process.env.NO_CACHE === 'true' || process.env.NO_CACHE ===
undefined`, and the Redis client is only constructed when `NO_CACHE` is
false.  The environment variable is an `Option String`, the Redis store a
partial map from keys to stored strings (`JSON.parse` after `JSON.stringify`
is modelled as the identity on the stored string). -/

/-- Key-value store backing the cache. -/
def RedisStore : Type := String → Option String

/-- Embeds the `NO_CACHE` module constant. -/
def noCacheEnv (noCacheVar : Option String) : Bool :=
  noCacheVar == some "true" || noCacheVar == none

/-- Embeds the module-level `redis` client: `null` unless caching is on. -/
def redisClient (noCacheVar : Option String) (store : RedisStore) : Option RedisStore :=
  if noCacheEnv noCacheVar then none else some store

/-- Embeds `getCache`: `if (NO_CACHE || !redis) return null`, else look the
key up. -/
def getCache (noCacheVar : Option String) (store : RedisStore) (key : String) :
    Option String :=
  match redisClient noCacheVar store with
  | none => none
  | some redis => if noCacheEnv noCacheVar then none else redis key

/-- Embeds `setCache`: `if (NO_CACHE || !redis) return`, else write the
value under the key.  Returns the store after the call. -/
def setCache (noCacheVar : Option String) (store : RedisStore)
    (key value : String) (_ttlSeconds : Nat) : RedisStore :=
  match redisClient noCacheVar store with
  | none => store
  | some redis =>
    if noCacheEnv noCacheVar then store
    else fun k => if k = key then some value else redis k

/-! ## Theorems -/

/-- Key arithmetic fact behind the corrected slippage claim: the code's
`amountOut - (amountOut * slippageBps) / 10000` is the ceiling, not the
floor, of `amountOut * (10000 - slippageBps) / 10000`. -/
theorem minOut_eq_ceil (o bps : Nat) (h : bps ≤ 10000) :
    o - o * bps / 10000 = (o * (10000 - bps) + 9999) / 10000 := by
  have key : o * (10000 - bps) + o * bps = 10000 * o := by
    rw [← Nat.mul_add, Nat.sub_add_cancel h, Nat.mul_comm]
  generalize hu : o * (10000 - bps) = u at key ⊢
  generalize ha : o * bps = a at key ⊢
  omega

/-- C1 counterexample: with reserves 5/5, input 5 and slippage 5000 bps
(a value the float round-trip preserves exactly, `jsEffBps 5000 = 5000`)
the PumpSwap strategy computes `amountOut = 3` and applies `minOut = 2`,
while `floor(3 * (10000 - 5000) / 10000) = 1`. -/
theorem pumpSwap_minOut_floor_counterexample :
    pumpSwapBuy 5 5 5 5000 = .ok ⟨3, 2⟩ ∧
    (⟨3, 2⟩ : PumpSwapQuote).minOut ≠ 3 * (10000 - 5000) / 10000 :=
  ⟨rfl, by decide⟩

/-- C1 (amended): for every constant-product swap, the minimum-received
amount the PumpSwap strategy applies (buy `minBaseAmountOut`, sell
`minQuoteAmountOut`) equals `ceil(amountOut * (10000 - s) / 10000)` — the
ceiling, not the floor, of the claimed quantity, written as
`(amountOut * (10000 - s) + 9999) / 10000` — where
`s = jsEffBps slippageBps` is the effective slippage after the code's
binary64 conversion `BigInt(Math.floor((slippageBps / 100) * 100))`; `s`
equals `slippageBps` except for the 573 integers in `[0, 10000]` where the
round-trip loses one basis point (e.g. requested 29 acts as 28). -/
theorem pumpSwap_minOut_ceil_form (baseReserves quoteReserves amountIn slippageBps : Nat)
    (hbps : jsEffBps slippageBps ≤ 10000) :
    (∀ quote, pumpSwapBuy baseReserves quoteReserves amountIn slippageBps = .ok quote →
      quote.minOut = (quote.amountOut * (10000 - jsEffBps slippageBps) + 9999) / 10000)
    ∧ (∀ quote, pumpSwapSell baseReserves quoteReserves amountIn slippageBps = .ok quote →
      quote.minOut = (quote.amountOut * (10000 - jsEffBps slippageBps) + 9999) / 10000) := by
  constructor <;> intro quote h
  · simp only [pumpSwapBuy] at h
    split at h
    · exact absurd h (by simp)
    · injection h with h2
      subst h2
      exact minOut_eq_ceil _ _ hbps
  · simp only [pumpSwapSell] at h
    split at h
    · exact absurd h (by simp)
    · injection h with h2
      subst h2
      exact minOut_eq_ceil _ _ hbps

/-- Witness for the amended C1 theorem: once at reserves 5/5, input 5,
slippage 300 bps (round-trip exact), and once at reserves 20000/10, input
10, requested slippage 29 bps, where the effective slippage is 28 bps and
the program applies `minOut = 9972` on `amountOut = 10000` (the claimed
floor form at the requested 29 bps would demand 9971). -/
theorem pumpSwap_minOut_ceil_form_witness :
    (jsEffBps 300 ≤ 10000 ∧
      (⟨3, 3⟩ : PumpSwapQuote).minOut =
        ((⟨3, 3⟩ : PumpSwapQuote).amountOut * (10000 - jsEffBps 300) + 9999) / 10000)
    ∧ (jsEffBps 29 ≤ 10000 ∧
      (⟨10000, 9972⟩ : PumpSwapQuote).minOut =
        ((⟨10000, 9972⟩ : PumpSwapQuote).amountOut * (10000 - jsEffBps 29) + 9999) / 10000) :=
  ⟨⟨by decide, (pumpSwap_minOut_ceil_form 5 5 5 300 (by decide)).1 ⟨3, 3⟩ rfl⟩,
   ⟨by decide, (pumpSwap_minOut_ceil_form 20000 10 10 29 (by decide)).1 ⟨10000, 9972⟩ rfl⟩⟩

/-- C2 counterexample: with both reserves 1 (positive) and input 5
(positive), the strategy computes `amountOut = 1 = Rout`, so the output is
not strictly less than the output-side reserve. -/
theorem pumpSwap_amountOut_drain_counterexample :
    (0 : Nat) < 1 ∧ (0 : Nat) < 5 ∧
    pumpSwapBuy 1 1 5 0 = .ok ⟨1, 1⟩ ∧
    ¬ ((⟨1, 1⟩ : PumpSwapQuote).amountOut < 1) :=
  ⟨by decide, by decide, rfl, by decide⟩

/-- C2 (amended): the PumpSwap constant-product output never exceeds the
output-side reserve, `amountOut ≤ Rout`; it is strictly below `Rout`
whenever `Rin + amountIn ≤ Rin * Rout` (in particular in every pool whose
reserve product dominates one trade input), but degenerate tiny pools can
reach `amountOut = Rout`. -/
theorem pumpSwap_amountOut_le_reserves (baseReserves quoteReserves amountIn slippageBps : Nat)
    (hb : 0 < baseReserves) (hq : 0 < quoteReserves) (quote : PumpSwapQuote)
    (h : pumpSwapBuy baseReserves quoteReserves amountIn slippageBps = .ok quote) :
    quote.amountOut ≤ baseReserves
    ∧ (quoteReserves + amountIn ≤ baseReserves * quoteReserves →
        quote.amountOut < baseReserves) := by
  simp only [pumpSwapBuy] at h
  split at h
  · exact absurd h (by simp)
  · injection h with h2
    subst h2
    refine ⟨Nat.sub_le _ _, fun hk => ?_⟩
    have hpos : 0 < quoteReserves + amountIn := by omega
    have h1 : 1 ≤ baseReserves * quoteReserves / (quoteReserves + amountIn) :=
      (Nat.one_le_div_iff hpos).mpr hk
    exact Nat.sub_lt hb h1

/-- Witness for the amended C2 theorem at reserves 5/5, input 5. -/
theorem pumpSwap_amountOut_le_reserves_witness :
    (⟨3, 3⟩ : PumpSwapQuote).amountOut ≤ 5
    ∧ (5 + 5 ≤ 5 * 5 → (⟨3, 3⟩ : PumpSwapQuote).amountOut < 5) :=
  pumpSwap_amountOut_le_reserves 5 5 5 0 (by decide) (by decide) ⟨3, 3⟩ rfl

/-- C7 counterexample: with positive virtual reserves `Vsol = 10`,
`Vtoken = 1`, the bonding-curve token output is 0 both at `solIn = 1` and
at `solIn = 2`, so it is not strictly increasing in `solIn`. -/
theorem pumpFun_strict_mono_counterexample :
    (0 : Nat) < 10 ∧ (0 : Nat) < 1 ∧ (1 : Nat) < 2 ∧
    ¬ (pumpFunBuyTokenOut 10 1 1 < pumpFunBuyTokenOut 10 1 2) := by
  decide

/-- C7 (amended): for fixed positive virtual reserves the bonding-curve buy
output `tokenOut = Vtoken * solIn / (Vsol + solIn)` (integer division) is
monotonically non-decreasing in `solIn` — not strictly increasing, since
floor division flattens small steps — and strictly bounded above by
`Vtoken`. -/
theorem pumpFun_buy_mono_bounded (Vsol Vtoken : Nat) (h1 : 0 < Vsol) (h2 : 0 < Vtoken) :
    (∀ s1 s2, s1 ≤ s2 →
      pumpFunBuyTokenOut Vsol Vtoken s1 ≤ pumpFunBuyTokenOut Vsol Vtoken s2)
    ∧ (∀ s, pumpFunBuyTokenOut Vsol Vtoken s < Vtoken) := by
  constructor
  · intro s1 s2 hs
    unfold pumpFunBuyTokenOut
    refine (Nat.le_div_iff_mul_le (by omega)).mpr ?_
    have hqle : Vtoken * s1 / (Vsol + s1) * (Vsol + s1) ≤ Vtoken * s1 :=
      Nat.div_mul_le_self _ _
    have hqv : Vtoken * s1 / (Vsol + s1) ≤ Vtoken := by
      calc Vtoken * s1 / (Vsol + s1)
          ≤ Vtoken * (Vsol + s1) / (Vsol + s1) :=
            Nat.div_le_div_right (Nat.mul_le_mul_left _ (by omega))
        _ = Vtoken := Nat.mul_div_cancel _ (by omega)
    obtain ⟨d, rfl⟩ := Nat.le.dest hs
    have h4 : Vtoken * s1 / (Vsol + s1) * d ≤ Vtoken * d :=
      Nat.mul_le_mul_right d hqv
    calc Vtoken * s1 / (Vsol + s1) * (Vsol + (s1 + d))
        = Vtoken * s1 / (Vsol + s1) * (Vsol + s1) + Vtoken * s1 / (Vsol + s1) * d := by
          ring
      _ ≤ Vtoken * s1 + Vtoken * d := Nat.add_le_add hqle h4
      _ = Vtoken * (s1 + d) := by ring
  · intro s
    unfold pumpFunBuyTokenOut
    refine (Nat.div_lt_iff_lt_mul (by omega)).mpr ?_
    have hpos : 0 < Vtoken * Vsol := Nat.mul_pos h2 h1
    have hexp : Vtoken * (Vsol + s) = Vtoken * Vsol + Vtoken * s := by ring
    rw [hexp]
    linarith

/-- Witness for the amended C7 theorem at `Vsol = 10`, `Vtoken = 5`. -/
theorem pumpFun_buy_mono_bounded_witness :
    pumpFunBuyTokenOut 10 5 3 ≤ pumpFunBuyTokenOut 10 5 7
    ∧ pumpFunBuyTokenOut 10 5 4 < 5 :=
  ⟨(pumpFun_buy_mono_bounded 10 5 (by decide) (by decide)).1 3 7 (by decide),
   (pumpFun_buy_mono_bounded 10 5 (by decide) (by decide)).2 4⟩

/-- Helper: the router's selection loop returns exactly the first settled
result whose check resolved `true`, and errors when there is none. -/
theorem selectFromResults_eq_find (l : List (StrategyName × CheckOutcome)) :
    selectFromResults l =
      match l.find? (fun p => p.2 == CheckOutcome.ok true) with
      | some p => .ok p.1
      | none => .error "Unsupported token or swap type" := by
  induction l with
  | nil => rfl
  | cons hd tl ih =>
    obtain ⟨s, c⟩ := hd
    match c with
    | .ok true =>
      rw [List.find?_cons_of_pos _ rfl]
      rfl
    | .ok false =>
      rw [List.find?_cons_of_neg _ (fun hcontra => Bool.noConfusion hcontra)]
      exact ih
    | .err =>
      rw [List.find?_cons_of_neg _ (fun hcontra => Bool.noConfusion hcontra)]
      exact ih

/-- C3: for every fixed assignment of outcomes (resolved boolean or thrown
error) to the five canHandle checks, the router returns the first strategy
in the fixed priority list `[moonshot, pumpswap, raydiumLaunchLab,
pumpFunBondingCurve, raydium]` whose check resolved `true` — a thrown check
never matches (it is treated as `false`), and when no check resolved `true`
the router throws the unsupported-token error.  The selection is a function
of the outcome assignment alone: the completion order of the concurrent
checks does not enter, because `Promise.all` delivers results in
construction order. -/
theorem router_selects_first_eligible (outcomes : StrategyName → CheckOutcome) :
    getSwapStrategy outcomes =
      match firstEligible outcomes with
      | some s => .ok s
      | none => .error "Unsupported token or swap type" := by
  unfold getSwapStrategy firstEligible
  have hcomp : ((fun p => p.2 == CheckOutcome.ok true) ∘ fun s : StrategyName => (s, outcomes s))
      = fun s => outcomes s == CheckOutcome.ok true := rfl
  rw [selectFromResults_eq_find, List.find?_map, hcomp]
  cases h : strategyClasses.find? fun s => outcomes s == CheckOutcome.ok true <;> simp [h]

/-- C4 counterexample: with one account-setup instruction, a strategy
result carrying one swap instruction and a positive fee,
`generateSwapTransaction` unshifts the fee transfer to the very front of
the compiled transaction, so the fee transfer comes before the
account-setup instruction, not after it. -/
theorem fee_before_setup_counterexample :
    (generateSwapTransaction [Instr.createAta 0]
        (.ok ⟨none, [Instr.swapIx 0], [], 100000⟩)).transactions =
      [[sendyFeeInstructionFor 100000, Instr.createAta 0, Instr.swapIx 0]]
    ∧ ¬ feeAfterSetup [sendyFeeInstructionFor 100000, Instr.createAta 0, Instr.swapIx 0] :=
  ⟨rfl, by decide⟩

/-- C4 (amended): the fixed instruction order the pipeline actually
produces.  The draft assembler `generateAndCompileTransaction` places a
compute-unit-price instruction first exactly when `priorityFee > 0`,
followed by all strategy-provided instructions; `generateSwapTransaction`
places the platform fee transfer (when the fee is positive) first —
before, not after, the account-setup instructions — followed by the
account-setup instructions and then the strategy's swap and cleanup
instructions, so the fee transfer still precedes the swap instruction. -/
theorem instruction_order_amended (priorityFee : Rat) (instrs ata : List Instr)
    (res : StrategyResult) (hpf : 0 < priorityFee)
    (hpre : res.raydiumVersionedTx = none) (hne : res.instructions ≠ [])
    (hfee : 0 < res.sendyFeeLamports) :
    (generateAndCompileTransaction priorityFee instrs true).transactions =
        [Instr.computeUnitPrice ⌈priorityFee * 1000000⌉ :: instrs]
    ∧ (∀ pf : Rat, pf ≤ 0 →
        (generateAndCompileTransaction pf instrs true).transactions = [instrs])
    ∧ (generateSwapTransaction ata (.ok res)).transactions =
        [sendyFeeInstructionFor res.sendyFeeLamports :: (ata ++ res.instructions)] := by
  refine ⟨?_, fun pf hpf0 => ?_, ?_⟩
  · have hceil : (0 : Int) < ⌈priorityFee * 1000000⌉ :=
      Int.ceil_pos.mpr (by positivity)
    simp [generateAndCompileTransaction, hpf, hceil]
  · simp [generateAndCompileTransaction, not_lt.mpr hpf0]
  · have hie : res.instructions.isEmpty = false := List.isEmpty_eq_false.mpr hne
    simp [generateSwapTransaction, hpre, hie, hfee]

/-- Witness for the amended C4 theorem at `priorityFee = 1`, one setup
instruction, one swap instruction and fee 7. -/
theorem instruction_order_amended_witness :
    (generateAndCompileTransaction 1 [Instr.swapIx 5] true).transactions =
        [Instr.computeUnitPrice ⌈(1 : Rat) * 1000000⌉ :: [Instr.swapIx 5]]
    ∧ (∀ pf : Rat, pf ≤ 0 →
        (generateAndCompileTransaction pf [Instr.swapIx 5] true).transactions = [[Instr.swapIx 5]])
    ∧ (generateSwapTransaction [Instr.createAta 1]
        (.ok ⟨none, [Instr.swapIx 2], [], 7⟩)).transactions =
        [sendyFeeInstructionFor 7 :: ([Instr.createAta 1] ++ [Instr.swapIx 2])] :=
  instruction_order_amended 1 [Instr.swapIx 5] [Instr.createAta 1]
    ⟨none, [Instr.swapIx 2], [], 7⟩ (by norm_num) rfl (by decide) (by decide)

/-- C5: when the selected strategy hands back a vendor pre-built versioned
transaction and the platform fee is positive, the build returns exactly the
two transactions `[venue transaction (unmodified), fee-only transaction]`;
with a zero fee it returns just the venue transaction, and every successful
build without a pre-built transaction produces exactly one transaction. -/
theorem prebuilt_tx_fee_split (ata : List Instr) (res : StrategyResult)
    (vtx : List Instr) (hpre : res.raydiumVersionedTx = some vtx) :
    (0 < res.sendyFeeLamports →
      (generateSwapTransaction ata (.ok res)).transactions =
        [vtx, [sendyFeeInstructionFor res.sendyFeeLamports]]
      ∧ (generateSwapTransaction ata (.ok res)).txCount = 2)
    ∧ (res.sendyFeeLamports = 0 →
      (generateSwapTransaction ata (.ok res)).transactions = [vtx]
      ∧ (generateSwapTransaction ata (.ok res)).txCount = 1)
    ∧ (∀ res' : StrategyResult, res'.raydiumVersionedTx = none →
        (generateSwapTransaction ata (.ok res')).success = true →
        (generateSwapTransaction ata (.ok res')).txCount = 1) := by
  refine ⟨fun hfee => ?_, fun hfee => ?_, fun res' hpre' hsucc => ?_⟩
  · simp [generateSwapTransaction, hpre, hfee]
  · simp [generateSwapTransaction, hpre, hfee]
  · by_cases hie : res'.instructions.isEmpty
    · simp [generateSwapTransaction, hpre', hie] at hsucc
    · simp only [Bool.not_eq_true] at hie
      by_cases hfee' : 0 < res'.sendyFeeLamports <;>
        simp [generateSwapTransaction, hpre', hie, hfee']

/-- Witness for the C5 theorem: a pre-built venue transaction with fee 9
yields the two-transaction split, fee 0 yields one, and a discrete result
yields one. -/
theorem prebuilt_tx_fee_split_witness :
    ((generateSwapTransaction [] (.ok ⟨some [Instr.swapIx 3], [], [], 9⟩)).transactions =
        [[Instr.swapIx 3], [sendyFeeInstructionFor 9]]
      ∧ (generateSwapTransaction [] (.ok ⟨some [Instr.swapIx 3], [], [], 9⟩)).txCount = 2)
    ∧ (generateSwapTransaction [] (.ok ⟨none, [Instr.swapIx 4], [], 0⟩)).txCount = 1 :=
  ⟨(prebuilt_tx_fee_split [] ⟨some [Instr.swapIx 3], [], [], 9⟩ [Instr.swapIx 3] rfl).1
      (by decide),
   (prebuilt_tx_fee_split [] ⟨some [Instr.swapIx 3], [], [], 9⟩ [Instr.swapIx 3] rfl).2.2
      ⟨none, [Instr.swapIx 4], [], 0⟩ rfl rfl⟩

/-- C9: a failed build never carries partial output — whenever either build
operation reports `success = false`, its transaction list is empty and its
transaction count is zero. -/
theorem error_result_empty (ata : List Instr) (outcome : Except String StrategyResult)
    (pf : Rat) (instrs : List Instr) (compileOk : Bool) :
    ((generateSwapTransaction ata outcome).success = false →
      (generateSwapTransaction ata outcome).transactions = [] ∧
      (generateSwapTransaction ata outcome).txCount = 0)
    ∧ ((generateAndCompileTransaction pf instrs compileOk).success = false →
      (generateAndCompileTransaction pf instrs compileOk).transactions = [] ∧
      (generateAndCompileTransaction pf instrs compileOk).txCount = 0) := by
  constructor
  · intro hfail
    match outcome with
    | .error e => simp [generateSwapTransaction]
    | .ok res =>
      match hpre : res.raydiumVersionedTx with
      | some vtx => simp [generateSwapTransaction, hpre] at hfail
      | none =>
        by_cases hie : res.instructions.isEmpty
        · simp [generateSwapTransaction, hpre, hie]
        · simp only [Bool.not_eq_true] at hie
          simp [generateSwapTransaction, hpre, hie] at hfail
  · intro hfail
    match compileOk with
    | true => simp [generateAndCompileTransaction] at hfail
    | false => simp [generateAndCompileTransaction]

/-- Witness for the C9 theorem at a strategy error and a compile failure. -/
theorem error_result_empty_witness :
    ((generateSwapTransaction [] (.error "Pool has zero reserves")).transactions = [] ∧
      (generateSwapTransaction [] (.error "Pool has zero reserves")).txCount = 0)
    ∧ ((generateAndCompileTransaction 0 [] false).transactions = [] ∧
      (generateAndCompileTransaction 0 [] false).txCount = 0) :=
  ⟨(error_result_empty [] (.error "Pool has zero reserves") 0 [] false).1 rfl,
   (error_result_empty [] (.error "Pool has zero reserves") 0 [] false).2 rfl⟩

/-- Helper: on a successful balance lookup for a non-native sell, the
sell-all check reduces to one tolerance comparison over the rationals. -/
theorem addClose_reduce (balanceRaw tokenDecimals : Nat) (amount : Rat)
    (instructions : List Instr) :
    addCloseTokenAccountInstructionIfSellAll true false
        (some (balanceRaw, tokenDecimals)) none amount instructions =
      if (balanceRaw : Rat) - (balanceRaw : Rat) * (1 / 1000) ≤
          ((⌊amount * (10 : Rat) ^ tokenDecimals⌋ : Int) : Rat)
      then instructions ++ [Instr.closeAccount .tokenAta]
      else instructions := rfl

/-- C6: for a sell of a non-native mint with a successful balance lookup,
the close-account instruction is appended exactly when
`floor(amount * 10 ^ decimals) ≥ balanceRaw - 0.001 * balanceRaw`; with
`balanceRaw = 1000000` (decimals 6) the instruction is appended for a
requested raw amount of 999500 and not for 900000; and a failed balance
lookup leaves the instruction list unchanged (the body's catch swallows the
error, so the call never throws). -/
theorem sell_all_close_account_iff (balanceRaw tokenDecimals : Nat)
    (amount : Rat) (instructions : List Instr) :
    (addCloseTokenAccountInstructionIfSellAll true false
        (some (balanceRaw, tokenDecimals)) none amount instructions =
        instructions ++ [Instr.closeAccount .tokenAta]
      ↔ (balanceRaw : Rat) - (balanceRaw : Rat) * (1 / 1000) ≤
          ((⌊amount * (10 : Rat) ^ tokenDecimals⌋ : Int) : Rat))
    ∧ addCloseTokenAccountInstructionIfSellAll true false none none amount instructions
        = instructions
    ∧ addCloseTokenAccountInstructionIfSellAll true false (some (1000000, 6)) none
        (9995 / 10000) [] = [Instr.closeAccount .tokenAta]
    ∧ addCloseTokenAccountInstructionIfSellAll true false (some (1000000, 6)) none
        (9 / 10) [] = [] := by
  refine ⟨?_, rfl, ?_, ?_⟩
  · rw [addClose_reduce]
    split_ifs with h
    · exact iff_of_true rfl h
    · refine iff_of_false (fun hcontra => ?_) h
      simp at hcontra
  · have h1 : ((9995 / 10000 : Rat) * (10 : Rat) ^ (6 : Nat)) = ((999500 : Int) : Rat) := by
      norm_num
    have hcond : ((1000000 : Nat) : Rat) - ((1000000 : Nat) : Rat) * (1 / 1000) ≤
        ((⌊(9995 / 10000 : Rat) * (10 : Rat) ^ (6 : Nat)⌋ : Int) : Rat) := by
      rw [h1, Int.floor_intCast]
      push_cast
      norm_num
    rw [addClose_reduce, if_pos hcond]
    rfl
  · have h1 : ((9 / 10 : Rat) * (10 : Rat) ^ (6 : Nat)) = ((900000 : Int) : Rat) := by
      norm_num
    have hncond : ¬ (((1000000 : Nat) : Rat) - ((1000000 : Nat) : Rat) * (1 / 1000) ≤
        ((⌊(9 / 10 : Rat) * (10 : Rat) ^ (6 : Nat)⌋ : Int) : Rat)) := by
      rw [h1, Int.floor_intCast]
      push_cast
      norm_num
    rw [addClose_reduce, if_neg hncond]

/-- C8: the platform fee is `floor(amount * bps / 10000)` at the hard-coded
default rate of 100 bps — `calculateSendyFee amount = specFee amount 100 =
floor(amount / 100)` — the spec's fee form vanishes at 0 bps, and the fee
transfer instruction is emitted exactly when the fee is positive. -/
theorem sendy_fee_formula :
    (∀ amount : Nat, calculateSendyFee amount = specFee amount 100)
    ∧ (∀ amount : Nat, specFee amount 0 = 0)
    ∧ (∀ lamports : Nat, 0 < lamports →
        makeSendyFeeInstruction lamports = some (sendyFeeInstructionFor lamports))
    ∧ makeSendyFeeInstruction 0 = none := by
  refine ⟨fun amount => ?_, fun amount => ?_, fun lamports hl => ?_, rfl⟩
  · unfold calculateSendyFee specFee
    omega
  · unfold specFee
    simp
  · simp [makeSendyFeeInstruction, sendyFeeInstructionFor, hl]

/-- Witness for the C8 theorem at a positive fee of 12345 lamports. -/
theorem sendy_fee_formula_witness :
    (0 : Nat) < 12345 ∧
    makeSendyFeeInstruction 12345 = some (sendyFeeInstructionFor 12345) :=
  ⟨by decide, sendy_fee_formula.2.2.1 12345 (by decide)⟩

/-- C10: when the `NO_CACHE` environment variable is unset or equals
`true`, `getCache` returns null for every key and `setCache` leaves the
store untouched — so by default (variable unset) venue selection is never
memoized and caching is opt-in. -/
theorem no_cache_default_disables (noCacheVar : Option String)
    (h : noCacheVar = none ∨ noCacheVar = some "true") :
    (∀ store key, getCache noCacheVar store key = none)
    ∧ (∀ store key value ttl, setCache noCacheVar store key value ttl = store) := by
  have hb : noCacheEnv noCacheVar = true := by
    rcases h with rfl | rfl <;> rfl
  constructor
  · intro store key
    simp [getCache, redisClient, hb]
  · intro store key value ttl
    simp [setCache, redisClient, hb]

/-- Witness for the C10 theorem with the variable unset and a store that
holds a value under every key. -/
theorem no_cache_default_disables_witness :
    getCache none (fun _ => some "pumpswap") "swap_strategy:mint:buy" = none
    ∧ setCache none (fun _ => some "pumpswap") "swap_strategy:mint:buy" "raydium" 1800
        = (fun _ => some "pumpswap") :=
  ⟨(no_cache_default_disables none (Or.inl rfl)).1 _ _,
   (no_cache_default_disables none (Or.inl rfl)).2 _ _ _ _⟩

end SwapServer
